import Mathlib

/-!
Verification development for the moxcms transform construction and
execution subsystem.

This file shallowly embeds the Rust sources:
  src/transform.rs                      (Layout, factory, Gray and RGB executors)
  src/conversions/transform_lut3_to_4.rs (scalar 3-in/4-out CLUT transform)
  src/conversions/avx/interpolator.rs    (tetrahedral/pyramid/prism interpolants,
                                          single- and double-table variants)
  src/conversions/avx/lut4_to_3.rs       (4-in/3-out CLUT transform, AVX)
  src/conversions/neon/lut4_to_3.rs      (4-in/3-out CLUT transform, NEON)
  src/conversions/sse/rgb_xyz_q4_12.rs   (fixed-point Q4.12 RGB kernel)

Machine integers are modelled as Nat / Int with explicit wrapping where
overflow matters.  The f32 arithmetic of the interpolators and gray path is
modelled over the exact rationals: the properties proved here are structural
(branch selection, table selection, index bounds, chunk pairing), which the
rounding of f32 does not affect.
-/

set_option autoImplicit false

/-- Error kinds surfaced by the engine.  Modelled from the spec: `src/err.rs`
is not part of the provided sources; the spec (section 7) lists the taxonomy
and `src/transform.rs` uses exactly these constructors. -/
inductive CmsError where
  | InvalidLayout
  | UnsupportedProfileConnection
  | InvalidTrc
  | InvalidIcc
  | LaneSizeMismatch
  | LaneMultipleOfChannels
  deriving DecidableEq, Repr

/-- Data layout of a pixel buffer, from `transform.rs` (enum `Layout`),
with the discriminants 0..=7 of the source. -/
inductive Layout where
  | Rgb8
  | Rgba8
  | Rgb16
  | Rgba16
  | Gray8
  | GrayAlpha8
  | Gray16
  | GrayAlpha16
  deriving DecidableEq, Repr

/-- Discriminant of a layout (`Layout as u8` in the source). -/
def Layout.toByte : Layout → Nat
  | .Rgb8 => 0
  | .Rgba8 => 1
  | .Rgb16 => 2
  | .Rgba16 => 3
  | .Gray8 => 4
  | .GrayAlpha8 => 5
  | .Gray16 => 6
  | .GrayAlpha16 => 7

/-- The `impl From u8 for Layout` of `transform.rs`; the `unimplemented!()`
arm for bytes outside 0..=7 is modelled as `none`. -/
def Layout.fromByte : Nat → Option Layout
  | 0 => some .Rgb8
  | 1 => some .Rgba8
  | 2 => some .Rgb16
  | 3 => some .Rgba16
  | 4 => some .Gray8
  | 5 => some .GrayAlpha8
  | 6 => some .Gray16
  | 7 => some .GrayAlpha16
  | _ => none

/-- Red channel index (`Layout::r_i`); `unimplemented!()` is `none`. -/
def Layout.r_i : Layout → Option Nat
  | .Rgb8 => some 0
  | .Rgba8 => some 0
  | .Rgb16 => some 0
  | .Rgba16 => some 0
  | .Gray8 => none
  | .GrayAlpha8 => none
  | .Gray16 => none
  | .GrayAlpha16 => none

/-- Green channel index (`Layout::g_i`). -/
def Layout.g_i : Layout → Option Nat
  | .Rgb8 => some 1
  | .Rgba8 => some 1
  | .Rgb16 => some 1
  | .Rgba16 => some 1
  | .Gray8 => none
  | .GrayAlpha8 => none
  | .Gray16 => none
  | .GrayAlpha16 => none

/-- Blue channel index (`Layout::b_i`). -/
def Layout.b_i : Layout → Option Nat
  | .Rgb8 => some 2
  | .Rgba8 => some 2
  | .Rgb16 => some 2
  | .Rgba16 => some 2
  | .Gray8 => none
  | .GrayAlpha8 => none
  | .Gray16 => none
  | .GrayAlpha16 => none

/-- Alpha channel index (`Layout::a_i`). -/
def Layout.a_i : Layout → Option Nat
  | .Rgb8 => none
  | .Rgba8 => some 3
  | .Rgb16 => none
  | .Rgba16 => some 3
  | .Gray8 => none
  | .GrayAlpha8 => some 1
  | .Gray16 => none
  | .GrayAlpha16 => some 1

/-- The `Layout::has_alpha` predicate of the source. -/
def Layout.has_alpha : Layout → Bool
  | .Rgb8 => false
  | .Rgba8 => true
  | .Rgb16 => false
  | .Rgba16 => true
  | .Gray8 => false
  | .GrayAlpha8 => true
  | .Gray16 => false
  | .GrayAlpha16 => true

/-- The `Layout::is_16_bit` predicate of the source. -/
def Layout.is_16_bit (l : Layout) : Bool :=
  l = Layout.Rgb16 || l = Layout.Rgba16 || l = Layout.Gray16 || l = Layout.GrayAlpha16

/-- The channel count of a layout (`Layout::channels`). -/
def Layout.channels : Layout → Nat
  | .Rgb8 => 3
  | .Rgba8 => 4
  | .Rgb16 => 3
  | .Rgba16 => 4
  | .Gray8 => 1
  | .GrayAlpha8 => 2
  | .Gray16 => 1
  | .GrayAlpha16 => 2

/-- Device color spaces read by the transform factory.  Modelled from the
spec (section 3, `color_space ∈ {RGB, Gray, CMYK, XYZ, Lab}`); the profile
module itself is not among the provided sources, and `transform.rs` compares
exactly the constructors below. -/
inductive DataColorSpace where
  | Rgb
  | Gray
  | Cmyk
  | Xyz
  | Lab
  deriving DecidableEq, Repr

/-- The two fields of `ColorProfile` that the transform factory's routing
reads (`color_space` and `pcs`).  Table building from the TRC fields is
abstracted: the routing claims treated here hold for profiles whose tables
sample successfully. -/
structure ColorProfile where
  color_space : DataColorSpace
  pcs : DataColorSpace
  deriving DecidableEq, Repr

/-- Modelled from the spec: `rounding_div_ceil` lives in the crate root,
which is not among the provided sources; the spec (section 4.3) fixes it as
the rounding ceil `(a + b - 1) / b` for non-negative `a`.  All call sites in
the provided sources pass non-negative arguments, so it is modelled on Nat. -/
def rounding_div_ceil (a b : Nat) : Nat :=
  (a + b - 1) / b

/-- A 4-lane f32 vector (`SseAlignedF32` / `__m128`), with the lanes modelled
as exact rationals. -/
structure V4 where
  l0 : ℚ
  l1 : ℚ
  l2 : ℚ
  l3 : ℚ
  deriving DecidableEq, Repr

instance : Zero V4 := ⟨⟨0, 0, 0, 0⟩⟩

instance : Inhabited V4 := ⟨0⟩

instance : Add V4 := ⟨fun a b => ⟨a.l0 + b.l0, a.l1 + b.l1, a.l2 + b.l2, a.l3 + b.l3⟩⟩

instance : Sub V4 := ⟨fun a b => ⟨a.l0 - b.l0, a.l1 - b.l1, a.l2 - b.l2, a.l3 - b.l3⟩⟩

instance : Mul V4 := ⟨fun a b => ⟨a.l0 * b.l0, a.l1 * b.l1, a.l2 * b.l2, a.l3 * b.l3⟩⟩

/-- Lane-broadcast (`_mm_set1_ps`, `AvxVectorSse::from(f32)`). -/
def V4.splat (q : ℚ) : V4 := ⟨q, q, q, q⟩

/-- Fused multiply-add `self + b * c` (`_mm_fmadd_ps(b, c, self)`); exact over
the rationals. -/
def V4.mla (a b c : V4) : V4 := a + b * c

/-- Lane-wise minimum (`_mm_min_ps` / `vminq_f32`). -/
def V4.lmin (a b : V4) : V4 := ⟨min a.l0 b.l0, min a.l1 b.l1, min a.l2 b.l2, min a.l3 b.l3⟩

/-- Lane-wise maximum (`_mm_max_ps` / `vmaxq_f32`). -/
def V4.lmax (a b : V4) : V4 := ⟨max a.l0 b.l0, max a.l1 b.l1, max a.l2 b.l2, max a.l3 b.l3⟩

/-- An 8-lane vector (`AvxVector` / `__m256`) as a pair of 4-lane halves;
`AvxVector::from_sse` is the pair constructor and `AvxVector::split` the
identity.  The pair addition, subtraction and multiplication instances are
componentwise, matching the lane-wise `_mm256` operations. -/
abbrev V8 := V4 × V4

/-- Broadcast over all 8 lanes (`AvxVector::from(f32)`). -/
def V8.splat (q : ℚ) : V8 := (V4.splat q, V4.splat q)

/-- Fused multiply-add on 8 lanes (`_mm256_fmadd_ps(b, c, self)`). -/
def V8.mla (a b c : V8) : V8 := a + b * c

/-- Flat offset of lattice point `(x, y, z)` in a cube of edge `G`
(`x * G * G + y * G + z`, the offset used by every `Fetcher` impl). -/
def latticeOffset (G x y z : Nat) : Nat :=
  x * (G * G) + y * G + z

/-- The `Fetcher` over one cube (`TetrahedralAvxSseFetchVector::fetch`):
reads the vector at the lattice offset.  The source reads unchecked
(`get_unchecked`); out-of-range offsets are undefined behaviour there and
default to the zero vector here (claim C5 shows they cannot occur). -/
def fetchVector (G : Nat) (cube : List V4) (x y z : Nat) : V4 :=
  cube.getD (latticeOffset G x y z) 0

/-- The double-cube `Fetcher` (`TetrahedralAvxFetchVector::fetch`): reads the
same offset from both cubes into one 8-lane vector. -/
def fetchVectorPair (G : Nat) (cube0 cube1 : List V4) (x y z : Nat) : V8 :=
  (fetchVector G cube0 x y z, fetchVector G cube1 x y z)

/-- Lower lattice corner for an input code: `in * (GRID_SIZE - 1) / 255`
with truncating (here: Nat) division, as computed by every interpolator. -/
def lutLowerIdx (G c : Nat) : Nat :=
  c * (G - 1) / 255

/-- Upper lattice corner: `rounding_div_ceil(in * (GRID_SIZE - 1), 255)`. -/
def lutUpperIdx (G c : Nat) : Nat :=
  rounding_div_ceil (c * (G - 1)) 255

/-- Fractional offset `in * scale - x` where `scale = (GRID_SIZE - 1) / 255`,
with the f32 arithmetic modelled exactly. -/
def fracOffset (G c : Nat) : ℚ :=
  (c : ℚ) * ((G - 1 : Nat) : ℚ) / 255 - (lutLowerIdx G c : ℚ)

/-- `TetrahedralAvxFma::interpolate` from `avx/interpolator.rs`: corner and
fraction computation, the 6-way nested branch on `(rx, ry, rz)`, and the
`mla` chain, over an abstract fetcher `r`. -/
def tetraInterpolate (G : Nat) (r : Nat → Nat → Nat → V4) (in_r in_g in_b : Nat) : V4 :=
  let x := lutLowerIdx G in_r
  let y := lutLowerIdx G in_g
  let z := lutLowerIdx G in_b
  let c0 := r x y z
  let x_n := lutUpperIdx G in_r
  let y_n := lutUpperIdx G in_g
  let z_n := lutUpperIdx G in_b
  let rx := fracOffset G in_r
  let ry := fracOffset G in_g
  let rz := fracOffset G in_b
  let finish := fun (c1 c2 c3 : V4) =>
    ((c0.mla c1 (V4.splat rx)).mla c2 (V4.splat ry)).mla c3 (V4.splat rz)
  if rx ≥ ry then
    if ry ≥ rz then
      finish (r x_n y z - c0) (r x_n y_n z - r x_n y z) (r x_n y_n z_n - r x_n y_n z)
    else if rx ≥ rz then
      finish (r x_n y z - c0) (r x_n y_n z_n - r x_n y z_n) (r x_n y z_n - r x_n y z)
    else
      finish (r x_n y z_n - r x y z_n) (r x_n y_n z_n - r x_n y z_n) (r x y z_n - c0)
  else if rx ≥ rz then
    finish (r x_n y_n z - r x y_n z) (r x y_n z - c0) (r x_n y_n z_n - r x_n y_n z)
  else if ry ≥ rz then
    finish (r x_n y_n z_n - r x y_n z_n) (r x y_n z - c0) (r x y_n z_n - r x y_n z)
  else
    finish (r x_n y_n z_n - r x y_n z_n) (r x y_n z_n - r x y z_n) (r x y z_n - c0)

/-- The tetrahedral interpolant as the spec words it (section 4.3): pick the
tetrahedron matching the order of `(rx, ry, rz)`, take `c0 = lattice(x,y,z)`
and the three case-specific edge deltas `c1, c2, c3`, and return
`c0 + c1 * rx + c2 * ry + c3 * rz`.  Stated with a flat 6-branch ordering
table; used only to compare against `tetraInterpolate`. -/
def tetraSpecInterpolate (G : Nat) (r : Nat → Nat → Nat → V4) (in_r in_g in_b : Nat) : V4 :=
  let x := lutLowerIdx G in_r
  let y := lutLowerIdx G in_g
  let z := lutLowerIdx G in_b
  let c0 := r x y z
  let x_n := lutUpperIdx G in_r
  let y_n := lutUpperIdx G in_g
  let z_n := lutUpperIdx G in_b
  let rx := fracOffset G in_r
  let ry := fracOffset G in_g
  let rz := fracOffset G in_b
  let out := fun (c1 c2 c3 : V4) =>
    c0 + c1 * V4.splat rx + c2 * V4.splat ry + c3 * V4.splat rz
  if rx ≥ ry ∧ ry ≥ rz then
    out (r x_n y z - c0) (r x_n y_n z - r x_n y z) (r x_n y_n z_n - r x_n y_n z)
  else if rx ≥ rz ∧ rz ≥ ry then
    out (r x_n y z - c0) (r x_n y_n z_n - r x_n y z_n) (r x_n y z_n - r x_n y z)
  else if rz > rx ∧ rx ≥ ry then
    out (r x_n y z_n - r x y z_n) (r x_n y_n z_n - r x_n y z_n) (r x y z_n - c0)
  else if ry > rx ∧ rx ≥ rz then
    out (r x_n y_n z - r x y_n z) (r x y_n z - c0) (r x_n y_n z_n - r x_n y_n z)
  else if ry ≥ rz ∧ rz > rx then
    out (r x_n y_n z_n - r x y_n z_n) (r x y_n z - c0) (r x y_n z_n - r x y_n z)
  else
    out (r x_n y_n z_n - r x y_n z_n) (r x y_n z_n - r x y z_n) (r x y z_n - c0)

/-- `PyramidalAvxFma::interpolate`: the 3-case pyramidal interpolant. -/
def pyramidInterpolate (G : Nat) (r : Nat → Nat → Nat → V4) (in_r in_g in_b : Nat) : V4 :=
  let x := lutLowerIdx G in_r
  let y := lutLowerIdx G in_g
  let z := lutLowerIdx G in_b
  let c0 := r x y z
  let x_n := lutUpperIdx G in_r
  let y_n := lutUpperIdx G in_g
  let z_n := lutUpperIdx G in_b
  let dr := fracOffset G in_r
  let dg := fracOffset G in_g
  let db := fracOffset G in_b
  let w0 := V4.splat db
  let w1 := V4.splat dr
  let w2 := V4.splat dg
  if dr > db ∧ dg > db then
    let w3 := V4.splat (dr * dg)
    let x0 := r x_n y_n z_n
    let x1 := r x_n y_n z
    let x2 := r x_n y z
    let x3 := r x y_n z
    let c1 := x0 - x1
    let c2 := x2 - c0
    let c3 := x3 - c0
    let c4 := c0 - x3 - x2 + x1
    (((c0.mla c1 w0).mla c2 w1).mla c3 w2).mla c4 w3
  else if db > dr ∧ dg > dr then
    let w3 := V4.splat (dg * db)
    let x0 := r x y z_n
    let x1 := r x_n y_n z_n
    let x2 := r x y_n z_n
    let x3 := r x y_n z
    let c1 := x0 - c0
    let c2 := x1 - x2
    let c3 := x3 - c0
    let c4 := c0 - x3 - x0 + x2
    (((c0.mla c1 w0).mla c2 w1).mla c3 w2).mla c4 w3
  else
    let w3 := V4.splat (db * dr)
    let x0 := r x y z_n
    let x1 := r x_n y z
    let x2 := r x_n y z_n
    let x3 := r x_n y_n z_n
    let c1 := x0 - c0
    let c2 := x1 - c0
    let c3 := x3 - x2
    let c4 := c0 - x1 - x0 + x2
    (((c0.mla c1 w0).mla c2 w1).mla c3 w2).mla c4 w3

/-- `PrismaticAvxFma::interpolate`: the 2-case prismatic interpolant. -/
def prismInterpolate (G : Nat) (r : Nat → Nat → Nat → V4) (in_r in_g in_b : Nat) : V4 :=
  let x := lutLowerIdx G in_r
  let y := lutLowerIdx G in_g
  let z := lutLowerIdx G in_b
  let c0 := r x y z
  let x_n := lutUpperIdx G in_r
  let y_n := lutUpperIdx G in_g
  let z_n := lutUpperIdx G in_b
  let dr := fracOffset G in_r
  let dg := fracOffset G in_g
  let db := fracOffset G in_b
  let w0 := V4.splat db
  let w1 := V4.splat dr
  let w2 := V4.splat dg
  let w3 := V4.splat (dg * db)
  let w4 := V4.splat (dr * dg)
  if db > dr then
    let x0 := r x y z_n
    let x1 := r x_n y z_n
    let x2 := r x y_n z
    let x3 := r x y_n z_n
    let x4 := r x_n y_n z_n
    let c1 := x0 - c0
    let c2 := x1 - x0
    let c3 := x2 - c0
    let c4 := c0 - x2 - x0 + x3
    let c5 := x0 - x3 - x1 + x4
    ((((c0.mla c1 w0).mla c2 w1).mla c3 w2).mla c4 w3).mla c5 w4
  else
    let x0 := r x_n y z
    let x1 := r x_n y z_n
    let x2 := r x y_n z
    let x3 := r x_n y_n z
    let x4 := r x_n y_n z_n
    let c1 := x1 - x0
    let c2 := x0 - c0
    let c3 := x2 - c0
    let c4 := x0 - x3 - x1 + x4
    let c5 := c0 - x2 - x0 + x3
    ((((c0.mla c1 w0).mla c2 w1).mla c3 w2).mla c4 w3).mla c5 w4

/-- `PrismaticAvxFmaDouble::interpolate`: the 2-case prismatic interpolant
over two cubes in parallel.  Note the source fetches BOTH `c0_0` and `c0_1`
from `r0` (lines 558-559 of `avx/interpolator.rs`); this embedding preserves
that. -/
def prismDoubleInterpolate (G : Nat) (r0 r1 : Nat → Nat → Nat → V4)
    (in_r in_g in_b : Nat) : V8 :=
  let x := lutLowerIdx G in_r
  let y := lutLowerIdx G in_g
  let z := lutLowerIdx G in_b
  let c0_0 := r0 x y z
  let c0_1 := r0 x y z
  let x_n := lutUpperIdx G in_r
  let y_n := lutUpperIdx G in_g
  let z_n := lutUpperIdx G in_b
  let dr := fracOffset G in_r
  let dg := fracOffset G in_g
  let db := fracOffset G in_b
  let w0 := V8.splat db
  let w1 := V8.splat dr
  let w2 := V8.splat dg
  let w3 := V8.splat (dg * db)
  let w4 := V8.splat (dr * dg)
  let c0 : V8 := (c0_0, c0_1)
  if db > dr then
    let x0 : V8 := (r0 x y z_n, r1 x y z_n)
    let x1 : V8 := (r0 x_n y z_n, r1 x_n y z_n)
    let x2 : V8 := (r0 x y_n z, r1 x y_n z)
    let x3 : V8 := (r0 x y_n z_n, r1 x y_n z_n)
    let x4 : V8 := (r0 x_n y_n z_n, r1 x_n y_n z_n)
    let c1 := x0 - c0
    let c2 := x1 - x0
    let c3 := x2 - c0
    let c4 := c0 - x2 - x0 + x3
    let c5 := x0 - x3 - x1 + x4
    ((((c0.mla c1 w0).mla c2 w1).mla c3 w2).mla c4 w3).mla c5 w4
  else
    let x0 : V8 := (r0 x_n y z, r1 x_n y z)
    let x1 : V8 := (r0 x_n y z_n, r1 x_n y z_n)
    let x2 : V8 := (r0 x y_n z, r1 x y_n z)
    let x3 : V8 := (r0 x_n y_n z, r1 x_n y_n z)
    let x4 : V8 := (r0 x_n y_n z_n, r1 x_n y_n z_n)
    let c1 := x1 - x0
    let c2 := x0 - c0
    let c3 := x2 - c0
    let c4 := x0 - x3 - x1 + x4
    let c5 := c0 - x2 - x0 + x3
    ((((c0.mla c1 w0).mla c2 w1).mla c3 w2).mla c4 w3).mla c5 w4

/-- `PyramidAvxFmaDouble::interpolate`: the 3-case pyramidal interpolant over
two cubes in parallel (`c0_0` from `r0`, `c0_1` from `r1`). -/
def pyramidDoubleInterpolate (G : Nat) (r0 r1 : Nat → Nat → Nat → V4)
    (in_r in_g in_b : Nat) : V8 :=
  let x := lutLowerIdx G in_r
  let y := lutLowerIdx G in_g
  let z := lutLowerIdx G in_b
  let c0_0 := r0 x y z
  let c0_1 := r1 x y z
  let x_n := lutUpperIdx G in_r
  let y_n := lutUpperIdx G in_g
  let z_n := lutUpperIdx G in_b
  let dr := fracOffset G in_r
  let dg := fracOffset G in_g
  let db := fracOffset G in_b
  let w0 := V8.splat db
  let w1 := V8.splat dr
  let w2 := V8.splat dg
  let c0 : V8 := (c0_0, c0_1)
  if dr > db ∧ dg > db then
    let w3 := V8.splat (dr * dg)
    let x0 : V8 := (r0 x_n y_n z_n, r1 x_n y_n z_n)
    let x1 : V8 := (r0 x_n y_n z, r1 x_n y_n z)
    let x2 : V8 := (r0 x_n y z, r1 x_n y z)
    let x3 : V8 := (r0 x y_n z, r1 x y_n z)
    let c1 := x0 - x1
    let c2 := x2 - c0
    let c3 := x3 - c0
    let c4 := c0 - x3 - x2 + x1
    (((c0.mla c1 w0).mla c2 w1).mla c3 w2).mla c4 w3
  else if db > dr ∧ dg > dr then
    let w3 := V8.splat (dg * db)
    let x0 : V8 := (r0 x y z_n, r1 x y z_n)
    let x1 : V8 := (r0 x_n y_n z_n, r1 x_n y_n z_n)
    let x2 : V8 := (r0 x y_n z_n, r1 x y_n z_n)
    let x3 : V8 := (r0 x y_n z, r1 x y_n z)
    let c1 := x0 - c0
    let c2 := x1 - x2
    let c3 := x3 - c0
    let c4 := c0 - x3 - x0 + x2
    (((c0.mla c1 w0).mla c2 w1).mla c3 w2).mla c4 w3
  else
    let w3 := V8.splat (db * dr)
    let x0 : V8 := (r0 x y z_n, r1 x y z_n)
    let x1 : V8 := (r0 x_n y z, r1 x_n y z)
    let x2 : V8 := (r0 x_n y z_n, r1 x_n y z_n)
    let x3 : V8 := (r0 x_n y_n z_n, r1 x_n y_n z_n)
    let c1 := x0 - c0
    let c2 := x1 - c0
    let c3 := x3 - x2
    let c4 := c0 - x1 - x0 + x2
    (((c0.mla c1 w0).mla c2 w1).mla c3 w2).mla c4 w3

/-- `TetrahedralAvxFmaDouble::interpolate`: the tetrahedral interpolant over
two cubes; `c0_0` comes from `r0`, `c0_1` from `r1`, and the branch deltas
come from the paired fetcher `rv` that reads both cubes at once. -/
def tetraDoubleInterpolate (G : Nat) (r0 r1 : Nat → Nat → Nat → V4)
    (rv : Nat → Nat → Nat → V8) (in_r in_g in_b : Nat) : V8 :=
  let x := lutLowerIdx G in_r
  let y := lutLowerIdx G in_g
  let z := lutLowerIdx G in_b
  let c0_0 := r0 x y z
  let c0_1 := r1 x y z
  let x_n := lutUpperIdx G in_r
  let y_n := lutUpperIdx G in_g
  let z_n := lutUpperIdx G in_b
  let rx := fracOffset G in_r
  let ry := fracOffset G in_g
  let rz := fracOffset G in_b
  let c0 : V8 := (c0_0, c0_1)
  let w0 := V8.splat rx
  let w1 := V8.splat ry
  let w2 := V8.splat rz
  let finish := fun (c1 c2 c3 : V8) => ((c0.mla c1 w0).mla c2 w1).mla c3 w2
  if rx ≥ ry then
    if ry ≥ rz then
      finish (rv x_n y z - c0) (rv x_n y_n z - rv x_n y z) (rv x_n y_n z_n - rv x_n y_n z)
    else if rx ≥ rz then
      finish (rv x_n y z - c0) (rv x_n y_n z_n - rv x_n y z_n) (rv x_n y z_n - rv x_n y z)
    else
      finish (rv x_n y z_n - rv x y z_n) (rv x_n y_n z_n - rv x_n y z_n) (rv x y z_n - c0)
  else if rx ≥ rz then
    finish (rv x_n y_n z - rv x y_n z) (rv x y_n z - c0) (rv x_n y_n z_n - rv x_n y_n z)
  else if ry ≥ rz then
    finish (rv x_n y_n z_n - rv x y_n z_n) (rv x y_n z - c0) (rv x y_n z_n - rv x y_n z)
  else
    finish (rv x_n y_n z_n - rv x y_n z_n) (rv x y_n z_n - rv x y z_n) (rv x y z_n - c0)

/-- `inter3_sse` of `PrismaticAvxFmaDouble` (macro `define_interp_avx_d`):
the double prismatic interpolant with both fetchers reading real cubes. -/
def prismDoubleOnCubes (G : Nat) (cube0 cube1 : List V4) (in_r in_g in_b : Nat) : V8 :=
  prismDoubleInterpolate G (fetchVector G cube0) (fetchVector G cube1) in_r in_g in_b

/-- `inter3_sse` of `PyramidAvxFmaDouble`. -/
def pyramidDoubleOnCubes (G : Nat) (cube0 cube1 : List V4) (in_r in_g in_b : Nat) : V8 :=
  pyramidDoubleInterpolate G (fetchVector G cube0) (fetchVector G cube1) in_r in_g in_b

/-- `inter3_sse` of `TetrahedralAvxFmaDouble`, with the paired fetcher
`TetrahedralAvxFetchVector` over both cubes. -/
def tetraDoubleOnCubes (G : Nat) (cube0 cube1 : List V4) (in_r in_g in_b : Nat) : V8 :=
  tetraDoubleInterpolate G (fetchVector G cube0) (fetchVector G cube1)
    (fetchVectorPair G cube0 cube1) in_r in_g in_b

/-- Modelled from the spec: `LUT_SAMPLING` lives in `conversions/lut_transforms.rs`,
which is not among the provided sources; the spec (section 4.4) fixes the
grid index space as the integer range `[0, 255]`, so `LUT_SAMPLING = 255`. -/
def LUT_SAMPLING : Nat := 255

/-- Lower K-slice index `w = k * (GRID_SIZE - 1) / LUT_SAMPLING` of the
4-input CLUT path (`avx/lut4_to_3.rs` line 82, `neon/lut4_to_3.rs` line 87). -/
def lut4KLower (G k : Nat) : Nat :=
  k * (G - 1) / LUT_SAMPLING

/-- Upper K-slice index `w_n = rounding_div_ceil(k * (GRID_SIZE - 1), LUT_SAMPLING)`. -/
def lut4KUpper (G k : Nat) : Nat :=
  rounding_div_ceil (k * (G - 1)) LUT_SAMPLING

/-- Blend weight `t = linear_k * (GRID_SIZE - 1) - w` where
`linear_k = k / LUT_SAMPLING`, modelled exactly. -/
def lut4KWeight (G k : Nat) : ℚ :=
  (k : ℚ) / (LUT_SAMPLING : ℚ) * ((G - 1 : Nat) : ℚ) - (lut4KLower G k : ℚ)

/-- Table selection and final blend of one 4-input CLUT pixel
(`avx/lut4_to_3.rs` lines 81-99): slice `table1` at `w * G^3` and `table2`
at `w_n * G^3`, run the double interpolant on `(c, m, y)`, and blend
`a0 * (1 - t) + b0 * t` (`hp = _mm_mul_ps(a0, 1 - t)`;
`_mm_fmadd_ps(b0, t, hp)`). -/
def lut4SelectBlend (G : Nat) (lut : List V4)
    (interp : List V4 → List V4 → Nat → Nat → Nat → V8)
    (c m y k : Nat) : V4 :=
  let w := lut4KLower G k
  let w_n := lut4KUpper G k
  let t := lut4KWeight G k
  let table1 := lut.drop (w * (G * G * G))
  let table2 := lut.drop (w_n * (G * G * G))
  let v := interp table1 table2 c m y
  v.1 * V4.splat (1 - t) + v.2 * V4.splat t

/-- The float (`!T::FINITE`) store path of the NEON 4-input CLUT pixel
(`neon/lut4_to_3.rs` lines 114-125): blend, then `vminq_f32` with the value
scale.  Note the source applies no lower clamp on this path (the AVX float
path has `_mm_max_ps(v, zeros)`; the NEON integer path saturates at zero in
`vcvtaq_u32_f32`). -/
def neonLut4PixelF32 (G bitDepth : Nat) (lut : List V4)
    (interp : List V4 → List V4 → Nat → Nat → Nat → V8)
    (c m y k : Nat) : V4 :=
  let value_scale := V4.splat ((2 ^ bitDepth - 1 : Nat) : ℚ)
  let v := lut4SelectBlend G lut interp c m y k
  v.lmin value_scale

/-- Round to nearest, ties to even (`_mm_cvtps_epi32` in the default MXCSR
rounding mode). -/
def roundTiesEven (q : ℚ) : ℤ :=
  let f := ⌊q⌋
  let r := q - (f : ℚ)
  if r < 1/2 then f
  else if 1/2 < r then f + 1
  else if f % 2 = 0 then f else f + 1

/-- Round to nearest, ties away from zero (Rust `f32::round` and
`vcvtaq_u32_f32`). -/
def rustRound (q : ℚ) : ℤ :=
  if 0 ≤ q then ⌊q + 1/2⌋ else -⌊-q + 1/2⌋

/-- The integer (`T::FINITE`) store path of the AVX 4-input CLUT pixel
(`avx/lut4_to_3.rs` lines 94-112): blend, clamp below at 0, scale by
`(1 << BIT_DEPTH) - 1`, clamp above, convert to integers. -/
def avxLut4PixelInt (G bitDepth : Nat) (lut : List V4)
    (interp : List V4 → List V4 → Nat → Nat → Nat → V8)
    (c m y k : Nat) : V4 :=
  let value_scale : ℚ := ((2 ^ bitDepth - 1 : Nat) : ℚ)
  let v := lut4SelectBlend G lut interp c m y k
  let v := v.lmax 0
  let v := v * V4.splat value_scale
  v.lmin (V4.splat value_scale)

/-- One iteration bound worth of the AVX 4-input chunk loop
(`avx/lut4_to_3.rs` lines 76-129): consume 4 source channels, write one
destination pixel through the integer store path.  The structural `fuel`
argument bounds the iteration count; callers pass at least the source
length, which exceeds the pixel count. -/
def lut4AvxChunkGo (L : Layout) (G bitDepth : Nat) (lut : List V4)
    (compress : Nat → Nat)
    (interp : List V4 → List V4 → Nat → Nat → Nat → V8) :
    Nat → List Nat → List Nat → List Nat
  | 0, _, dst => dst
  | fuel + 1, src, dst =>
    let channels := L.channels
    if src.length < 4 ∨ dst.length < channels then dst
    else
      let c := compress (src.getD 0 0)
      let m := compress (src.getD 1 0)
      let y := compress (src.getD 2 0)
      let k := compress (src.getD 3 0)
      let v := avxLut4PixelInt G bitDepth lut interp c m y k
      let max_value := 2 ^ bitDepth - 1
      let pix := (dst.take channels).set (L.r_i.getD 0) (roundTiesEven v.l0).toNat
      let pix := pix.set (L.g_i.getD 0) (roundTiesEven v.l1).toNat
      let pix := pix.set (L.b_i.getD 0) (roundTiesEven v.l2).toNat
      let pix := if channels = 4 then pix.set (L.a_i.getD 0) max_value else pix
      pix ++ lut4AvxChunkGo L G bitDepth lut compress interp fuel (src.drop 4) (dst.drop channels)

/-- `TransformLut4XyzToRgbAvx::transform` (`avx/lut4_to_3.rs` lines
143-176): the lane checks, then the chunk loop.  The dispatch over
`interpolation_method` is abstracted into the `interp` parameter, exactly as
`transform_chunk` is generic over the interpolator in the source; `compress`
stands for `CompressForLut::compress_lut`. -/
def transformLut4Avx (L : Layout) (G bitDepth : Nat) (lut : List V4)
    (compress : Nat → Nat)
    (interp : List V4 → List V4 → Nat → Nat → Nat → V8)
    (src dst : List Nat) : Except CmsError (List Nat) :=
  let channels := L.channels
  if src.length % 4 ≠ 0 then .error .LaneMultipleOfChannels
  else if dst.length % channels ≠ 0 then .error .LaneMultipleOfChannels
  else if src.length / 4 ≠ dst.length / channels then .error .LaneSizeMismatch
  else .ok (lut4AvxChunkGo L G bitDepth lut compress interp src.length src dst)

/-- One pixel of the scalar 3-in/4-out CLUT transform
(`transform_lut3_to_4.rs` lines 68-84, integer `T::FINITE` path): transform
the interpolated vector by `v * value_scale + 0.5`, clamp each lane to
`[0, value_scale]` (`min` then `max`), truncate (`as_()`). -/
def lut3x4PixelInt (bitDepth : Nat) (v : V4) : List Nat :=
  let value_scale : ℚ := ((2 ^ bitDepth - 1 : Nat) : ℚ)
  let r := v * V4.splat value_scale + V4.splat (1/2)
  [ ⌊max (min r.l0 value_scale) 0⌋.toNat,
    ⌊max (min r.l1 value_scale) 0⌋.toNat,
    ⌊max (min r.l2 value_scale) 0⌋.toNat,
    ⌊max (min r.l3 value_scale) 0⌋.toNat ]

/-- The chunk loop of `TransformLut3x4::transform_chunk`: consume one
source pixel of `channels` elements, write 4 destination elements.  `fuel`
as in `lut4AvxChunkGo`. -/
def lut3x4ChunkGo (L : Layout) (bitDepth : Nat) (compress : Nat → Nat)
    (inter4 : Nat → Nat → Nat → V4) :
    Nat → List Nat → List Nat → List Nat
  | 0, _, dst => dst
  | fuel + 1, src, dst =>
    let channels := L.channels
    if src.length < channels ∨ dst.length < 4 then dst
    else
      let x := compress (src.getD (L.r_i.getD 0) 0)
      let y := compress (src.getD (L.g_i.getD 0) 0)
      let z := compress (src.getD (L.b_i.getD 0) 0)
      lut3x4PixelInt bitDepth (inter4 x y z)
        ++ lut3x4ChunkGo L bitDepth compress inter4 fuel (src.drop channels) (dst.drop 4)

/-- `TransformLut3x4::transform` (`transform_lut3_to_4.rs` lines 98-133):
the lane checks, then the chunk loop; the dispatch over
`interpolation_method` is abstracted into `inter4` exactly as
`transform_chunk` is generic over `Tetrahedral: MultidimensionalInterpolation`. -/
def transformLut3x4 (L : Layout) (bitDepth : Nat) (compress : Nat → Nat)
    (inter4 : Nat → Nat → Nat → V4)
    (src dst : List Nat) : Except CmsError (List Nat) :=
  let channels := L.channels
  if src.length % channels ≠ 0 then .error .LaneMultipleOfChannels
  else if dst.length % 4 ≠ 0 then .error .LaneMultipleOfChannels
  else if src.length / channels ≠ dst.length / 4 then .error .LaneSizeMismatch
  else .ok (lut3x4ChunkGo L bitDepth compress inter4 src.length src dst)

/-- The owned tables of `TransformProfileGrayToRgb`: one linearization LUT
(`gray_linear`, `BUCKET` floats, indexed by the source code) and one gamma
LUT (`gray_gamma`, 65536 entries), modelled as total maps. -/
structure GrayProfile where
  gray_linear : Nat → ℚ
  gray_gamma : Nat → Nat

/-- The linearization pass of `TransformProfileGrayToRgb::transform_chunk`
(`transform.rs` lines 555-557): `zip(src, working_set)` overwrites one
working-set entry per source sample and stops at the shorter side. -/
def linearizeGray (lin : Nat → ℚ) : List Nat → List ℚ → List ℚ
  | _, [] => []
  | [], ws => ws
  | s :: src, _ :: ws => lin s :: linearizeGray lin src ws

/-- The store pass of `TransformProfileGrayToRgb::transform_chunk`
(`transform.rs` lines 562-582): `zip(working_set, dst.chunks_exact_mut(channels))`
writes one destination pixel per working-set entry, stopping when fewer than
`channels` destination elements remain; the gamma index is
`(chunk * (GAMMA_LUT - 1)).round() as usize`. -/
def writeGrayPixels (p : GrayProfile) (L : Layout) (gammaLut bitDepth : Nat) :
    List ℚ → List Nat → List Nat
  | [], dst => dst
  | w :: ws, dst =>
    let channels := L.channels
    if dst.length < channels then dst
    else
      let possible_value := (rustRound (w * ((gammaLut - 1 : Nat) : ℚ))).toNat
      let gamma_value := p.gray_gamma possible_value
      let max_value := 2 ^ bitDepth - 1
      let pix := dst.take channels
      let pix :=
        if L = .Gray8 ∨ L = .GrayAlpha8 ∨ L = .Gray16 ∨ L = .GrayAlpha16 then
          let pix := pix.set 0 gamma_value
          if L = .GrayAlpha8 ∨ L = .GrayAlpha16 then pix.set 1 max_value else pix
        else
          let pix := pix.set (L.r_i.getD 0) gamma_value
          let pix := pix.set (L.g_i.getD 0) gamma_value
          let pix := pix.set (L.b_i.getD 0) gamma_value
          if L.has_alpha then pix.set (L.a_i.getD 0) max_value else pix
      pix ++ writeGrayPixels p L gammaLut bitDepth ws (dst.drop channels)

/-- `TransformProfileGrayToRgb::transform_chunk` (`transform.rs` lines
546-584): linearize into the working set, then store through the gamma
table.  Returns the updated working set (it persists across chunks) and the
updated destination slice. -/
def grayTransformChunk (p : GrayProfile) (L : Layout) (gammaLut bitDepth : Nat)
    (src : List Nat) (ws : List ℚ) (dst : List Nat) : List ℚ × List Nat :=
  let ws1 := linearizeGray p.gray_linear src ws
  (ws1, writeGrayPixels p L gammaLut bitDepth ws1 dst)

/-- The main loop of `TransformProfileGrayToRgb::transform` (`transform.rs`
lines 610-612): `zip(src.chunks_exact(672), dst.chunks_exact_mut(672 / channels))`
feeds 672-sample source chunks and `672 / channels`-element destination
chunks to `transform_chunk`, stopping when either side runs short.  `fuel`
bounds the iteration count structurally; callers pass more than the
possible number of iterations. -/
def grayMainLoopGo (p : GrayProfile) (L : Layout) (gammaLut bitDepth chunksz : Nat) :
    Nat → List Nat → List ℚ → List Nat → List ℚ × List Nat
  | 0, _, ws, dst => (ws, dst)
  | fuel + 1, src, ws, dst =>
    if src.length < 672 ∨ dst.length < chunksz then (ws, dst)
    else
      let r := grayTransformChunk p L gammaLut bitDepth (src.take 672) ws (dst.take chunksz)
      let rest := grayMainLoopGo p L gammaLut bitDepth chunksz fuel (src.drop 672) r.1 (dst.drop chunksz)
      (rest.1, r.2 ++ rest.2)

/-- `TransformProfileGrayToRgb::transform` (`transform.rs` lines 597-622):
the two lane checks, the zeroed 672-float working set, the main chunk loop,
and the remainder call on `src.chunks_exact(672).remainder()` paired with
`dst.chunks_exact_mut(672 / channels).into_remainder()`. -/
def grayTransform (p : GrayProfile) (L : Layout) (gammaLut bitDepth : Nat)
    (src dst : List Nat) : Except CmsError (List Nat) :=
  let channels := L.channels
  if src.length ≠ dst.length / channels then .error .LaneSizeMismatch
  else if dst.length % channels ≠ 0 then .error .LaneMultipleOfChannels
  else
    let ws0 : List ℚ := List.replicate 672 0
    let chunksz := 672 / channels
    let main := grayMainLoopGo p L gammaLut bitDepth chunksz (src.length / 672 + 1) src ws0 dst
    let rem := src.drop (672 * (src.length / 672))
    let dstBody := dst.length - dst.length % chunksz
    if rem ≠ [] then
      .ok (main.2.take dstBody ++
        (grayTransformChunk p L gammaLut bitDepth rem main.1 (main.2.drop dstBody)).2)
    else
      .ok main.2

/-- The pipeline variant selected by the factory, reduced to its routing
content (which executor family, for which layout). -/
inductive TransformKind where
  | rgbXyz (l : Layout)
  | grayToRgb (l : Layout)
  | cmykClut (l : Layout)
  deriving DecidableEq, Repr

/-- Modelled from the spec: `create_cmyk_to_rgb` lives in `src/clut.rs`,
which is not among the provided sources; the spec (sections 4.4 and 4.7)
says this branch builds the CLUT 4-in/3-out path for the given layout. -/
def create_cmyk_to_rgb (_src _dst : ColorProfile) (layout : Layout) :
    Except CmsError TransformKind :=
  .ok (.cmykClut layout)

/-- `ColorProfile::create_transform_8bit` (`transform.rs` lines 413-532),
reduced to its routing: the 16-bit layout rejection, the RGB-to-RGB branch,
the Gray branch, the CMYK branch, and the fall-through error.  Table
building (`build_8bit_lin_table`, `build_8bit_gamma_table`) is not among
the provided sources and is modelled as succeeding; the layout `match`
arms marked `unimplemented!()` in the source are unreachable after the
preceding layout rejections. -/
def create_transform_8bit (self dst_pr : ColorProfile) (layout : Layout) :
    Except CmsError TransformKind :=
  if layout.is_16_bit then .error .InvalidLayout
  else if self.color_space = .Rgb ∧ dst_pr.pcs = .Xyz ∧
      dst_pr.color_space = .Rgb ∧ self.pcs = .Xyz then
    if layout = .Gray8 ∨ layout = .GrayAlpha8 then .error .InvalidLayout
    else .ok (.rgbXyz layout)
  else if self.color_space = .Gray ∧ dst_pr.color_space = .Rgb ∧
      self.pcs = .Xyz ∧ dst_pr.pcs = .Xyz then
    .ok (.grayToRgb layout)
  else if self.color_space = .Cmyk ∧ dst_pr.color_space = .Rgb then
    if layout = .Gray8 ∨ layout = .GrayAlpha8 then .error .InvalidLayout
    else create_cmyk_to_rgb self dst_pr layout
  else .error .UnsupportedProfileConnection

/-- `ColorProfile::create_transform_nbit` (`transform.rs` lines 269-409),
the common routing behind `create_transform_16bit` / `12bit` / `10bit`
(whose const parameters do not affect routing): the 8-bit layout rejection,
the RGB-to-RGB branch with its Gray-layout rejection, the Gray branch, and
the fall-through error.  There is no CMYK branch at this entry point. -/
def create_transform_nbit (self dst_pr : ColorProfile) (layout : Layout) :
    Except CmsError TransformKind :=
  if layout = .Rgba8 ∨ layout = .GrayAlpha8 ∨ layout = .Rgb8 ∨ layout = .Gray8 then
    .error .InvalidLayout
  else if self.color_space = .Rgb ∧ dst_pr.pcs = .Xyz ∧
      dst_pr.color_space = .Rgb ∧ self.pcs = .Xyz then
    if layout = .Gray16 ∨ layout = .GrayAlpha16 then .error .InvalidLayout
    else .ok (.rgbXyz layout)
  else if self.color_space = .Gray ∧ dst_pr.color_space = .Rgb ∧
      self.pcs = .Xyz ∧ dst_pr.pcs = .Xyz then
    .ok (.grayToRgb layout)
  else .error .UnsupportedProfileConnection

/-- Reduce an i32 value (held as an unbounded integer) to its wrapped
two's-complement representative in `[-2^31, 2^31)`. -/
def wrap32 (x : ℤ) : ℤ :=
  (x + 2 ^ 31) % 2 ^ 32 - 2 ^ 31

/-- The unsigned 32-bit pattern of an i32 lane. -/
def u32ofI32 (x : ℤ) : ℤ :=
  x % 2 ^ 32

/-- Interpret a value in `[0, 2^16)` as a signed 16-bit integer. -/
def s16 (v : ℤ) : ℤ :=
  if v < 2 ^ 15 then v else v - 2 ^ 16

/-- The signed low 16-bit half of a 32-bit lane. -/
def lane_lo16 (x : ℤ) : ℤ :=
  s16 (u32ofI32 x % 2 ^ 16)

/-- The signed high 16-bit half of a 32-bit lane. -/
def lane_hi16 (x : ℤ) : ℤ :=
  s16 (u32ofI32 x / 2 ^ 16)

/-- One 32-bit lane of `_mm_madd_epi16`: multiply the two signed 16-bit
halves of each operand pairwise and add the products. -/
def madd_epi16 (a b : ℤ) : ℤ :=
  wrap32 (lane_lo16 a * lane_lo16 b + lane_hi16 a * lane_hi16 b)

/-- `ROUNDING_Q4_12 = (1 << (12 - 1)) - 1` from `sse/rgb_xyz_q4_12.rs`. -/
def ROUNDING_Q4_12 : ℤ :=
  (1 <<< (12 - 1)) - 1

/-- One output-channel gamma index of the Q4.12 SSE kernel
(`TransformProfileRgbQ12Sse::transform_impl`, lines 89-138): with the matrix
transposed, lane `i` of `_mm_madd_epi16(r, m0)` is `madd(v_r, m[i][0])` and
likewise for the green and blue rows; then `acc0 = v0 + rnd`,
`acc1 = v1 + v2`, `v = acc0 + acc1`, arithmetic shift right by 12
(`_mm_srai_epi32::<12>`), clamp below at zero (`_mm_max_epi32`) and above at
`GAMMA_LUT - 1` (`_mm_min_epi32`). -/
def q12LaneIndex (gammaLut : Nat) (m : Fin 3 → Fin 3 → ℤ) (v : Fin 3 → ℤ)
    (i : Fin 3) : ℤ :=
  let v0 := madd_epi16 (v 0) (m i 0)
  let v1 := madd_epi16 (v 1) (m i 1)
  let v2 := madd_epi16 (v 2) (m i 2)
  let acc0 := wrap32 (v0 + ROUNDING_Q4_12)
  let acc1 := wrap32 (v1 + v2)
  let vv := wrap32 (acc0 + acc1)
  let shifted := Int.fdiv vv (2 ^ 12)
  min (max shifted 0) ((gammaLut : ℤ) - 1)

/-- The Q4.12 gamma index as the claim words it:
`clamp((sum m_ij * v_j + (2^11 - 1)) >> 12, 0, GAMMA_LUT - 1)` with `>>` an
arithmetic (floor) shift and exact integer products. -/
def q12SpecIndex (gammaLut : Nat) (m : Fin 3 → Fin 3 → ℤ) (v : Fin 3 → ℤ)
    (i : Fin 3) : ℤ :=
  min (max (Int.fdiv (m i 0 * v 0 + m i 1 * v 1 + m i 2 * v 2 + (2 ^ 11 - 1)) (2 ^ 12)) 0)
    ((gammaLut : ℤ) - 1)

deriving instance Fintype for Layout

deriving instance Fintype for DataColorSpace

deriving instance Fintype for ColorProfile

deriving instance DecidableEq for Except

/-- A single 2x2x2 cube whose origin lattice vector `(5, 5, 5, 0)` differs
from the origin vector of `demoCube1`; concrete input for the double-table
interpolants. -/
def demoCube0 : List V4 := ⟨5, 5, 5, 0⟩ :: List.replicate 7 0

/-- Companion cube of `demoCube0` with origin vector `(7, 7, 7, 0)`. -/
def demoCube1 : List V4 := ⟨7, 7, 7, 0⟩ :: List.replicate 7 0

/-- A two-cube 4D LUT for grid edge 2 whose only nonzero entry sits at
lattice point `(1, 0, 1)` (offset 5) of the first cube. -/
def demoLut16 : List V4 :=
  List.replicate 5 0 ++ (⟨1, 1, 1, 0⟩ :: List.replicate 10 0)

/-- A gray profile whose linearization table is identically 0 and whose
gamma table is identically 5. -/
def demoGrayProfile : GrayProfile := ⟨fun _ => 0, fun _ => 5⟩

@[ext] theorem V4.lane_ext {a b : V4} (h0 : a.l0 = b.l0) (h1 : a.l1 = b.l1)
    (h2 : a.l2 = b.l2) (h3 : a.l3 = b.l3) : a = b := by
  cases a; cases b; simp_all

@[simp] theorem V4.add_lane0 (a b : V4) : (a + b).l0 = a.l0 + b.l0 := rfl

@[simp] theorem V4.add_lane1 (a b : V4) : (a + b).l1 = a.l1 + b.l1 := rfl

@[simp] theorem V4.add_lane2 (a b : V4) : (a + b).l2 = a.l2 + b.l2 := rfl

@[simp] theorem V4.add_lane3 (a b : V4) : (a + b).l3 = a.l3 + b.l3 := rfl

@[simp] theorem V4.sub_lane0 (a b : V4) : (a - b).l0 = a.l0 - b.l0 := rfl

@[simp] theorem V4.sub_lane1 (a b : V4) : (a - b).l1 = a.l1 - b.l1 := rfl

@[simp] theorem V4.sub_lane2 (a b : V4) : (a - b).l2 = a.l2 - b.l2 := rfl

@[simp] theorem V4.sub_lane3 (a b : V4) : (a - b).l3 = a.l3 - b.l3 := rfl

@[simp] theorem V4.mul_lane0 (a b : V4) : (a * b).l0 = a.l0 * b.l0 := rfl

@[simp] theorem V4.mul_lane1 (a b : V4) : (a * b).l1 = a.l1 * b.l1 := rfl

@[simp] theorem V4.mul_lane2 (a b : V4) : (a * b).l2 = a.l2 * b.l2 := rfl

@[simp] theorem V4.mul_lane3 (a b : V4) : (a * b).l3 = a.l3 * b.l3 := rfl

@[simp] theorem V4.splat_lane0 (q : ℚ) : (V4.splat q).l0 = q := rfl

@[simp] theorem V4.splat_lane1 (q : ℚ) : (V4.splat q).l1 = q := rfl

@[simp] theorem V4.splat_lane2 (q : ℚ) : (V4.splat q).l2 = q := rfl

@[simp] theorem V4.splat_lane3 (q : ℚ) : (V4.splat q).l3 = q := rfl

@[simp] theorem V4.zero_lane0 : (0 : V4).l0 = 0 := rfl

@[simp] theorem V4.zero_lane1 : (0 : V4).l1 = 0 := rfl

@[simp] theorem V4.zero_lane2 : (0 : V4).l2 = 0 := rfl

@[simp] theorem V4.zero_lane3 : (0 : V4).l3 = 0 := rfl

theorem Layout.channels_pos (l : Layout) : 0 < l.channels := by
  cases l <;> decide

theorem Layout.channels_le_four (l : Layout) : l.channels ≤ 4 := by
  cases l <;> decide

/-- C10: the Layout byte conversion is a partial inverse pair but not total:
`Layout::from(l as u8) = l` for each of the 8 variants, `Layout::from(v)`
panics (here: is `none`) for every byte `v ≥ 8`, `r_i`, `g_i` and `b_i`
panic exactly on the Gray and GrayAlpha layouts, and `a_i` panics exactly on
`Rgb8`, `Rgb16`, `Gray8` and `Gray16`. -/
theorem layout_conversions_partial :
    (∀ l : Layout, Layout.fromByte l.toByte = some l) ∧
    (∀ v : Nat, Layout.fromByte v = none ↔ 8 ≤ v) ∧
    (∀ l : Layout,
      (l.r_i = none ↔ (l = .Gray8 ∨ l = .GrayAlpha8 ∨ l = .Gray16 ∨ l = .GrayAlpha16)) ∧
      (l.g_i = none ↔ (l = .Gray8 ∨ l = .GrayAlpha8 ∨ l = .Gray16 ∨ l = .GrayAlpha16)) ∧
      (l.b_i = none ↔ (l = .Gray8 ∨ l = .GrayAlpha8 ∨ l = .Gray16 ∨ l = .GrayAlpha16)) ∧
      (l.a_i = none ↔ (l = .Rgb8 ∨ l = .Rgb16 ∨ l = .Gray8 ∨ l = .Gray16))) := by
  refine ⟨by decide, ?_, by decide⟩
  intro v
  constructor
  · intro h
    by_contra hlt
    push_neg at hlt
    interval_cases v <;> simp [Layout.fromByte] at h
  · intro h
    obtain ⟨k, rfl⟩ : ∃ k, v = k + 8 := ⟨v - 8, by omega⟩
    rfl

/-- C3, counterexample: a CMYK source with an RGB destination at the 16-bit
entry point is rejected with `UnsupportedProfileConnection` for both 16-bit
RGB layouts — no CLUT transform is built there, contrary to the claim that
the CLUT 4-to-3 path is built for every 16-bit RGB/RGBA layout. -/
theorem cmyk_16bit_entry_unsupported :
    create_transform_nbit ⟨.Cmyk, .Xyz⟩ ⟨.Rgb, .Xyz⟩ .Rgb16 =
      .error .UnsupportedProfileConnection ∧
    create_transform_nbit ⟨.Cmyk, .Xyz⟩ ⟨.Rgb, .Xyz⟩ .Rgba16 =
      .error .UnsupportedProfileConnection := by decide

/-- C3, amended: the factory's decision tree, with the CMYK-to-RGB CLUT
path confined to the 8-bit entry point.  For CMYK to RGB: the 8-bit entry
builds the CLUT 4-to-3 transform for `Rgb8`/`Rgba8` and rejects the Gray
layouts with `InvalidLayout`, while the 10/12/16-bit entry matches no branch
and returns `UnsupportedProfileConnection`.  Gray layouts for RGB-to-RGB are
`InvalidLayout` at both entry points, as is a 16-bit layout at the 8-bit
entry point or an 8-bit layout at the n-bit entry point; a profile pair
matching no branch is `UnsupportedProfileConnection`. -/
theorem transform_factory_decision_tree (src dst : ColorProfile) (l : Layout) :
    (src.color_space = .Cmyk → dst.color_space = .Rgb →
      (l = .Rgb8 ∨ l = .Rgba8) →
      create_transform_8bit src dst l = .ok (.cmykClut l)) ∧
    (src.color_space = .Cmyk → dst.color_space = .Rgb →
      (l = .Gray8 ∨ l = .GrayAlpha8) →
      create_transform_8bit src dst l = .error .InvalidLayout) ∧
    (src.color_space = .Cmyk → l.is_16_bit = true →
      create_transform_nbit src dst l = .error .UnsupportedProfileConnection) ∧
    (src.color_space = .Rgb → src.pcs = .Xyz → dst.color_space = .Rgb → dst.pcs = .Xyz →
      (l = .Gray8 ∨ l = .GrayAlpha8) →
      create_transform_8bit src dst l = .error .InvalidLayout) ∧
    (src.color_space = .Rgb → src.pcs = .Xyz → dst.color_space = .Rgb → dst.pcs = .Xyz →
      (l = .Gray16 ∨ l = .GrayAlpha16) →
      create_transform_nbit src dst l = .error .InvalidLayout) ∧
    (l.is_16_bit = true → create_transform_8bit src dst l = .error .InvalidLayout) ∧
    (l.is_16_bit = false → create_transform_nbit src dst l = .error .InvalidLayout) ∧
    (l.is_16_bit = false →
      ¬(src.color_space = .Rgb ∧ dst.pcs = .Xyz ∧ dst.color_space = .Rgb ∧ src.pcs = .Xyz) →
      ¬(src.color_space = .Gray ∧ dst.color_space = .Rgb ∧ src.pcs = .Xyz ∧ dst.pcs = .Xyz) →
      ¬(src.color_space = .Cmyk ∧ dst.color_space = .Rgb) →
      create_transform_8bit src dst l = .error .UnsupportedProfileConnection) ∧
    (l.is_16_bit = true →
      ¬(src.color_space = .Rgb ∧ dst.pcs = .Xyz ∧ dst.color_space = .Rgb ∧ src.pcs = .Xyz) →
      ¬(src.color_space = .Gray ∧ dst.color_space = .Rgb ∧ src.pcs = .Xyz ∧ dst.pcs = .Xyz) →
      create_transform_nbit src dst l = .error .UnsupportedProfileConnection) := by
  refine ⟨?_, ?_, ?_, ?_, ?_, ?_, ?_, ?_, ?_⟩ <;>
    revert l <;> revert dst <;> revert src <;> decide

/-- Witness for `transform_factory_decision_tree` at a concrete CMYK-to-RGB
profile pair and the `Rgba8` layout. -/
theorem transform_factory_decision_tree_witness :
    create_transform_8bit ⟨.Cmyk, .Xyz⟩ ⟨.Rgb, .Xyz⟩ .Rgba8 = .ok (.cmykClut .Rgba8) :=
  (transform_factory_decision_tree ⟨.Cmyk, .Xyz⟩ ⟨.Rgb, .Xyz⟩ .Rgba8).1 rfl rfl (Or.inr rfl)
/-- C6: in the 4-input CLUT path the K coordinate at its extremes selects
exactly one cube with no cross-blending: at `k = 0` both table slices start
at the first `G * G * G` cube and the blend weight `t` is 0, at `k = 255`
both start at the last cube and `t` is 0, and in both cases the blended
output collapses to the first component of the double interpolant over that
single cube. -/
theorem lut4_k_extremes_single_cube (G : Nat) (lut : List V4)
    (interp : List V4 → List V4 → Nat → Nat → Nat → V8) (c m y : Nat) :
    (lut4KLower G 0 = 0 ∧ lut4KUpper G 0 = 0 ∧ lut4KWeight G 0 = 0 ∧
      lut4SelectBlend G lut interp c m y 0 = (interp lut lut c m y).1) ∧
    (lut4KLower G 255 = G - 1 ∧ lut4KUpper G 255 = G - 1 ∧ lut4KWeight G 255 = 0 ∧
      lut4SelectBlend G lut interp c m y 255 =
        (interp (lut.drop ((G - 1) * (G * G * G)))
          (lut.drop ((G - 1) * (G * G * G))) c m y).1) := by
  have hw0 : lut4KLower G 0 = 0 := by simp [lut4KLower]
  have hwn0 : lut4KUpper G 0 = 0 := by
    simp [lut4KUpper, rounding_div_ceil, LUT_SAMPLING]
  have ht0 : lut4KWeight G 0 = 0 := by
    simp [lut4KWeight, hw0]
  have hw255 : lut4KLower G 255 = G - 1 := by
    unfold lut4KLower LUT_SAMPLING
    omega
  have hwn255 : lut4KUpper G 255 = G - 1 := by
    unfold lut4KUpper rounding_div_ceil LUT_SAMPLING
    omega
  have ht255 : lut4KWeight G 255 = 0 := by
    unfold lut4KWeight LUT_SAMPLING
    rw [hw255]
    norm_num
  refine ⟨⟨hw0, hwn0, ht0, ?_⟩, ⟨hw255, hwn255, ht255, ?_⟩⟩
  · simp only [lut4SelectBlend, hw0, hwn0, ht0, Nat.zero_mul, List.drop_zero]
    ext <;> simp
  · simp only [lut4SelectBlend, hw255, hwn255, ht255]
    ext <;> simp

/-- C5: for every grid edge `G ≥ 2` and every input code `c ≤ 255`, the
lower corner `c * (G - 1) / 255` and the rounding-ceil upper corner both lie
in `0 ..= G - 1`, the upper corner exceeds the lower by at most 1 and equals
it at the last grid cell, the fractional offset lies in `[0, 1]`, and every
lattice fetch offset `x * G^2 + y * G + z` built from in-range corners is
strictly below `G^3`, so the unchecked cube reads stay in bounds. -/
theorem interp_corner_indices_in_bounds (G c : Nat) (hG : 2 ≤ G) (hc : c ≤ 255) :
    lutLowerIdx G c ≤ G - 1 ∧
    lutUpperIdx G c ≤ G - 1 ∧
    lutLowerIdx G c ≤ lutUpperIdx G c ∧
    lutUpperIdx G c ≤ lutLowerIdx G c + 1 ∧
    (c = 255 → lutUpperIdx G c = lutLowerIdx G c) ∧
    (lutLowerIdx G c = G - 1 → lutUpperIdx G c = lutLowerIdx G c) ∧
    0 ≤ fracOffset G c ∧ fracOffset G c ≤ 1 ∧
    ∀ x y z : Nat, x ≤ G - 1 → y ≤ G - 1 → z ≤ G - 1 →
      latticeOffset G x y z < G * G * G := by
  have hb : c * (G - 1) ≤ 255 * (G - 1) := Nat.mul_le_mul_right _ hc
  have hfrac : 0 ≤ fracOffset G c ∧ fracOffset G c ≤ 1 := by
    have hdm := Nat.div_add_mod (c * (G - 1)) 255
    have hml : c * (G - 1) % 255 < 255 := Nat.mod_lt _ (by norm_num)
    unfold fracOffset lutLowerIdx
    have hcast : ((c * (G - 1) : Nat) : ℚ) =
        255 * ((c * (G - 1) / 255 : Nat) : ℚ) + ((c * (G - 1) % 255 : Nat) : ℚ) := by
      exact_mod_cast congrArg (fun n : Nat => (n : ℚ)) hdm.symm
    have hq : (c : ℚ) * ((G - 1 : Nat) : ℚ) = ((c * (G - 1) : Nat) : ℚ) := by
      push_cast
      ring
    rw [hq, hcast]
    have hm0 : (0:ℚ) ≤ ((c * (G - 1) % 255 : Nat) : ℚ) := by positivity
    have hm1 : ((c * (G - 1) % 255 : Nat) : ℚ) < 255 := by exact_mod_cast hml
    set q := ((c * (G - 1) / 255 : Nat) : ℚ) with hqdef
    set m := ((c * (G - 1) % 255 : Nat) : ℚ) with hmdef
    have key : (255 * q + m) / 255 - q = m / 255 := by ring
    rw [key]
    constructor
    · positivity
    · rw [div_le_one (by norm_num : (0:ℚ) < 255)]
      linarith
  have hlat : ∀ x y z : Nat, x ≤ G - 1 → y ≤ G - 1 → z ≤ G - 1 →
      latticeOffset G x y z < G * G * G := by
    intro x y z hx hy hz
    obtain ⟨k, rfl⟩ := Nat.exists_eq_add_of_le hG
    have hs : 2 + k - 1 = k + 1 := by omega
    have h1 : x * ((2 + k) * (2 + k)) ≤ (2 + k - 1) * ((2 + k) * (2 + k)) :=
      Nat.mul_le_mul_right _ hx
    have h2 : y * (2 + k) ≤ (2 + k - 1) * (2 + k) := Nat.mul_le_mul_right _ hy
    have h3 : (2 + k - 1) * ((2 + k) * (2 + k)) + (2 + k - 1) * (2 + k) + (2 + k - 1) + 1 =
        (2 + k) * (2 + k) * (2 + k) := by
      rw [hs]
      ring
    unfold latticeOffset
    omega
  refine ⟨?_, ?_, ?_, ?_, ?_, ?_, hfrac.1, hfrac.2, hlat⟩
  · show c * (G - 1) / 255 ≤ G - 1
    omega
  · show (c * (G - 1) + 255 - 1) / 255 ≤ G - 1
    omega
  · show c * (G - 1) / 255 ≤ (c * (G - 1) + 255 - 1) / 255
    omega
  · show (c * (G - 1) + 255 - 1) / 255 ≤ c * (G - 1) / 255 + 1
    omega
  · intro h255
    subst h255
    show (255 * (G - 1) + 255 - 1) / 255 = 255 * (G - 1) / 255
    omega
  · intro hEq
    have hEq2 : c * (G - 1) / 255 = G - 1 := hEq
    show (c * (G - 1) + 255 - 1) / 255 = c * (G - 1) / 255
    omega

/-- Witness for `interp_corner_indices_in_bounds` at grid edge 17 and
input code 200. -/
theorem interp_corner_indices_in_bounds_witness :
    lutLowerIdx 17 200 ≤ 17 - 1 ∧ lutUpperIdx 17 200 ≤ 17 - 1 :=
  ⟨(interp_corner_indices_in_bounds 17 200 (by decide) (by decide)).1,
   (interp_corner_indices_in_bounds 17 200 (by decide) (by decide)).2.1⟩


/-- C2, failing evaluation: at a lattice point (all fractional offsets zero,
input `(0, 0, 0)`) the prismatic double interpolant returns a `p1` read from
`table0` — both components equal `table0`'s origin vector `(5, 5, 5, 0)` —
while the pyramid and tetrahedral double interpolants return `table1`'s
origin vector `(7, 7, 7, 0)` for `p1`, and a direct fetch from `table1`
confirms that vector.  This pins the `c0_1 = r0.fetch(x, y, z)` slip on
lines 558-559 of `avx/interpolator.rs`. -/
theorem prism_double_p1_reads_table0 :
    (prismDoubleOnCubes 2 demoCube0 demoCube1 0 0 0).2 = ⟨5, 5, 5, 0⟩ ∧
    (prismDoubleOnCubes 2 demoCube0 demoCube1 0 0 0).1 = ⟨5, 5, 5, 0⟩ ∧
    fetchVector 2 demoCube1 0 0 0 = ⟨7, 7, 7, 0⟩ ∧
    (pyramidDoubleOnCubes 2 demoCube0 demoCube1 0 0 0).2 = ⟨7, 7, 7, 0⟩ ∧
    (tetraDoubleOnCubes 2 demoCube0 demoCube1 0 0 0).2 = ⟨7, 7, 7, 0⟩ := by
  refine ⟨?_, ?_, ?_, ?_, ?_⟩ <;>
    simp [prismDoubleOnCubes, pyramidDoubleOnCubes, tetraDoubleOnCubes,
      prismDoubleInterpolate, pyramidDoubleInterpolate, tetraDoubleInterpolate,
      fetchVector, fetchVectorPair, latticeOffset, lutLowerIdx, lutUpperIdx,
      fracOffset, rounding_div_ceil, demoCube0, demoCube1, V8.mla, V8.splat, V4.mla] <;>
    (ext <;> simp)

/-- C7, failing evaluation: on the NEON float store path (which lacks the
lower clamp at zero), a pyramid-interpolated 4-input CLUT pixel built from a
LUT whose entries all lie in `[0, 1]` produces the negative output
`-16256/65025` on its first lane at input `(128, 128, 128, 0)` with grid
edge 2 and bit depth 8. -/
theorem neon_f32_pyramid_output_negative :
    (neonLut4PixelF32 2 8 demoLut16 (pyramidDoubleOnCubes 2) 128 128 128 0).l0
        = -16256/65025 ∧
    (neonLut4PixelF32 2 8 demoLut16 (pyramidDoubleOnCubes 2) 128 128 128 0).l0 < 0 := by
  have h : (neonLut4PixelF32 2 8 demoLut16 (pyramidDoubleOnCubes 2) 128 128 128 0).l0
      = -16256/65025 := by
    simp [neonLut4PixelF32, lut4SelectBlend, lut4KLower, lut4KUpper, lut4KWeight,
      LUT_SAMPLING, rounding_div_ceil, pyramidDoubleOnCubes, pyramidDoubleInterpolate,
      fetchVector, latticeOffset, lutLowerIdx, lutUpperIdx, fracOffset,
      demoLut16, V8.mla, V8.splat, V4.mla, V4.lmin]
    norm_num [min_def]
  exact ⟨h, by rw [h]; norm_num⟩
/-- C4, counterexample: with an empty source and a 2-element destination,
both the scalar 3-in/4-out transform and the AVX 4-in/3-out transform return
`LaneMultipleOfChannels`, not the `LaneSizeMismatch` the claim's final clause
demands for `src.len() = 0` and `dst.len() != 0`. -/
theorem clut_empty_src_short_dst_not_mismatch :
    transformLut3x4 .Rgb8 8 id (fun _ _ _ => 0) [] [9, 9] =
      .error .LaneMultipleOfChannels ∧
    transformLut4Avx .Rgb8 2 8 [] id (fun _ _ _ _ _ => (0, 0)) [] [9, 9] =
      .error .LaneMultipleOfChannels := by decide

/-- C4, amended: for the scalar 3-in/4-out CLUT transform and the AVX
4-in/3-out CLUT transform, `LaneMultipleOfChannels` is returned when either
slice length is not a multiple of its channel count; `LaneSizeMismatch` when
both are multiples but the pixel counts differ; `Ok` with no writes when both
slices are empty; and `LaneSizeMismatch` when exactly one slice is empty and
the other nonempty one is a multiple of its channel count (a nonempty,
non-multiple other slice yields `LaneMultipleOfChannels` instead, as the
counterexample shows). -/
theorem clut_lane_error_conditions (L : Layout) (bd G : Nat) (comp : Nat → Nat)
    (inter4 : Nat → Nat → Nat → V4) (lut : List V4)
    (interp : List V4 → List V4 → Nat → Nat → Nat → V8)
    (src dst : List Nat) :
    (¬ (L.channels ∣ src.length) ∨ ¬ (4 ∣ dst.length) →
      transformLut3x4 L bd comp inter4 src dst = .error .LaneMultipleOfChannels) ∧
    (L.channels ∣ src.length → 4 ∣ dst.length →
      src.length / L.channels ≠ dst.length / 4 →
      transformLut3x4 L bd comp inter4 src dst = .error .LaneSizeMismatch) ∧
    (src = [] → dst = [] → transformLut3x4 L bd comp inter4 src dst = .ok dst) ∧
    (src = [] → dst ≠ [] → 4 ∣ dst.length →
      transformLut3x4 L bd comp inter4 src dst = .error .LaneSizeMismatch) ∧
    (dst = [] → src ≠ [] → L.channels ∣ src.length →
      transformLut3x4 L bd comp inter4 src dst = .error .LaneSizeMismatch) ∧
    (¬ (4 ∣ src.length) ∨ ¬ (L.channels ∣ dst.length) →
      transformLut4Avx L G bd lut comp interp src dst = .error .LaneMultipleOfChannels) ∧
    (4 ∣ src.length → L.channels ∣ dst.length →
      src.length / 4 ≠ dst.length / L.channels →
      transformLut4Avx L G bd lut comp interp src dst = .error .LaneSizeMismatch) ∧
    (src = [] → dst = [] → transformLut4Avx L G bd lut comp interp src dst = .ok dst) ∧
    (src = [] → dst ≠ [] → L.channels ∣ dst.length →
      transformLut4Avx L G bd lut comp interp src dst = .error .LaneSizeMismatch) ∧
    (dst = [] → src ≠ [] → 4 ∣ src.length →
      transformLut4Avx L G bd lut comp interp src dst = .error .LaneSizeMismatch) := by
  have hc := Layout.channels_pos L
  refine ⟨?_, ?_, ?_, ?_, ?_, ?_, ?_, ?_, ?_, ?_⟩
  · intro h
    simp only [Nat.dvd_iff_mod_eq_zero] at h
    simp only [transformLut3x4]
    split_ifs with h1 h2 h3 <;> first | rfl | tauto
  · intro hs hd hne
    simp only [Nat.dvd_iff_mod_eq_zero] at hs hd
    simp only [transformLut3x4]
    split_ifs with h1 h2 <;> first | rfl | tauto
  · intro hs hd
    subst hs
    subst hd
    simp [transformLut3x4, lut3x4ChunkGo]
  · intro hs hd hdvd
    subst hs
    have hlen : dst.length ≠ 0 := by
      simpa using hd
    simp only [transformLut3x4, List.length_nil, Nat.zero_mod, Nat.zero_div]
    split_ifs with h1 h2 h3 <;> first | rfl | omega
  · intro hd hs hdvd
    subst hd
    have hlen : src.length ≠ 0 := by
      simpa using hs
    have hpos : 0 < src.length / L.channels :=
      Nat.div_pos (Nat.le_of_dvd (by omega) hdvd) hc
    have hmod : src.length % L.channels = 0 := Nat.dvd_iff_mod_eq_zero.mp hdvd
    simp only [transformLut3x4, List.length_nil, Nat.zero_mod, Nat.zero_div]
    split_ifs with h1 h2 h3 <;> first | rfl | omega
  · intro h
    simp only [Nat.dvd_iff_mod_eq_zero] at h
    simp only [transformLut4Avx]
    split_ifs with h1 h2 h3 <;> first | rfl | tauto
  · intro hs hd hne
    simp only [Nat.dvd_iff_mod_eq_zero] at hs hd
    simp only [transformLut4Avx]
    split_ifs with h1 h2 <;> first | rfl | tauto
  · intro hs hd
    subst hs
    subst hd
    simp [transformLut4Avx, lut4AvxChunkGo]
  · intro hs hd hdvd
    subst hs
    have hlen : dst.length ≠ 0 := by
      simpa using hd
    have hpos : 0 < dst.length / L.channels :=
      Nat.div_pos (Nat.le_of_dvd (by omega) hdvd) hc
    have hmod : dst.length % L.channels = 0 := Nat.dvd_iff_mod_eq_zero.mp hdvd
    simp only [transformLut4Avx, List.length_nil, Nat.zero_mod, Nat.zero_div]
    split_ifs with h1 h2 h3 <;> first | rfl | omega
  · intro hd hs hdvd
    subst hd
    have hlen : src.length ≠ 0 := by
      simpa using hs
    simp only [transformLut4Avx, List.length_nil, Nat.zero_mod, Nat.zero_div]
    split_ifs with h1 h2 h3 <;> first | rfl | omega

/-- Witness for `clut_lane_error_conditions`: three source samples against
an empty destination give `LaneSizeMismatch`. -/
theorem clut_lane_error_conditions_witness :
    transformLut3x4 .Rgb8 8 id (fun _ _ _ => (0 : V4)) [0, 0, 0] [] =
      .error .LaneSizeMismatch :=
  (clut_lane_error_conditions .Rgb8 8 2 id (fun _ _ _ => 0) []
    (fun _ _ _ _ _ => (0, 0)) [0, 0, 0] []).2.2.2.2.1 rfl (by decide) (by decide)
/-- C8: the tetrahedral interpolant selects one of exactly 6 branches by
the ordering of the fractional offsets `(rx, ry, rz)` and returns
`c0 + c1 * rx + c2 * ry + c3 * rz` with the case-specific edge deltas of the
6-branch table (stated as `tetraSpecInterpolate`); consequently, at a
lattice point (`rx = ry = rz = 0`) the single-table interpolant returns
`lattice(x, y, z)` and the double-table interpolant returns the pair of
lattice vectors of its two cubes. -/
theorem tetra_six_branch_table (G : Nat) (r r0 r1 : Nat → Nat → Nat → V4)
    (rv : Nat → Nat → Nat → V8) (in_r in_g in_b : Nat) :
    tetraInterpolate G r in_r in_g in_b = tetraSpecInterpolate G r in_r in_g in_b ∧
    (fracOffset G in_r = 0 → fracOffset G in_g = 0 → fracOffset G in_b = 0 →
      tetraInterpolate G r in_r in_g in_b =
        r (lutLowerIdx G in_r) (lutLowerIdx G in_g) (lutLowerIdx G in_b)) ∧
    (fracOffset G in_r = 0 → fracOffset G in_g = 0 → fracOffset G in_b = 0 →
      tetraDoubleInterpolate G r0 r1 rv in_r in_g in_b =
        (r0 (lutLowerIdx G in_r) (lutLowerIdx G in_g) (lutLowerIdx G in_b),
         r1 (lutLowerIdx G in_r) (lutLowerIdx G in_g) (lutLowerIdx G in_b))) := by
  refine ⟨?_, ?_, ?_⟩
  · simp only [tetraInterpolate, tetraSpecInterpolate]
    by_cases h1 : fracOffset G in_r ≥ fracOffset G in_g
    · by_cases h2 : fracOffset G in_g ≥ fracOffset G in_b
      · rw [if_pos h1, if_pos h2, if_pos ⟨h1, h2⟩]
        ext <;> simp [V4.mla]
      · by_cases h3 : fracOffset G in_r ≥ fracOffset G in_b
        · rw [if_pos h1, if_neg h2, if_pos h3, if_neg (by tauto),
            if_pos ⟨h3, by linarith⟩]
          ext <;> simp [V4.mla]
        · rw [if_pos h1, if_neg h2, if_neg h3, if_neg (by tauto),
            if_neg (by rintro ⟨a, b⟩; exact h3 a),
            if_pos ⟨by linarith, h1⟩]
          ext <;> simp [V4.mla]
    · by_cases h2 : fracOffset G in_r ≥ fracOffset G in_b
      · rw [if_neg h1, if_pos h2, if_neg (by tauto),
          if_neg (by rintro ⟨a, b⟩; exact h1 (by linarith)),
          if_neg (by rintro ⟨a, b⟩; exact h1 b),
          if_pos ⟨by linarith, h2⟩]
        ext <;> simp [V4.mla]
      · by_cases h3 : fracOffset G in_g ≥ fracOffset G in_b
        · rw [if_neg h1, if_neg h2, if_pos h3, if_neg (by tauto),
            if_neg (by rintro ⟨a, b⟩; exact h2 a),
            if_neg (by rintro ⟨a, b⟩; exact h1 b),
            if_neg (by rintro ⟨a, b⟩; exact h2 b),
            if_pos ⟨h3, by linarith⟩]
          ext <;> simp [V4.mla]
        · rw [if_neg h1, if_neg h2, if_neg h3, if_neg (by tauto),
            if_neg (by rintro ⟨a, b⟩; exact h2 a),
            if_neg (by rintro ⟨a, b⟩; exact h1 b),
            if_neg (by rintro ⟨a, b⟩; exact h2 b),
            if_neg (by rintro ⟨a, b⟩; exact h3 a)]
          ext <;> simp [V4.mla]
  · intro h1 h2 h3
    simp only [tetraInterpolate]
    rw [h1, h2, h3, if_pos (by norm_num), if_pos (by norm_num)]
    ext <;> simp [V4.mla]
  · intro h1 h2 h3
    simp only [tetraDoubleInterpolate]
    rw [h1, h2, h3, if_pos (by norm_num), if_pos (by norm_num)]
    refine Prod.ext ?_ ?_ <;> (ext <;> simp [V8.mla, V8.splat, V4.mla])
/-- Values already inside the i32 range are fixed by the 32-bit wrap. -/
theorem wrap32_eq_of_bounds (x : ℤ) (h1 : -(2^31) ≤ x) (h2 : x < 2^31) : wrap32 x = x := by
  unfold wrap32
  omega

/-- Exactness of one `_mm_madd_epi16` lane: for a left operand in
`[0, 2^12]` (a Q4.12 linearization value, whose high half is zero) and a
right operand fitting in i16, the lane computes the exact product. -/
theorem q12_madd_exact (a b : ℤ) (ha0 : 0 ≤ a) (ha1 : a ≤ 4096)
    (hb0 : -32768 ≤ b) (hb1 : b ≤ 32767) : madd_epi16 a b = a * b := by
  have hlo_a : lane_lo16 a = a := by
    unfold lane_lo16 s16 u32ofI32
    split_ifs <;> omega
  have hhi_a : lane_hi16 a = 0 := by
    unfold lane_hi16 s16 u32ofI32
    split_ifs <;> omega
  have hlo_b : lane_lo16 b = b := by
    unfold lane_lo16 s16 u32ofI32
    split_ifs <;> omega
  have h1 : a * b ≤ 2^27 := by nlinarith
  have h2 : -(2^27) ≤ a * b := by nlinarith
  unfold madd_epi16
  rw [hlo_a, hhi_a, hlo_b]
  simp only [zero_mul, add_zero]
  exact wrap32_eq_of_bounds _ (by linarith) (by linarith)

/-- C9: under the precondition that the linearization values lie in
`[0, 2^12]` and the matrix coefficients fit in i16, the SIMD multiply-add
computes the exact products `m_ij * v_j`, each gamma index of the Q4.12 SSE
kernel equals `clamp((sum_j m_ij * v_j + (2^11 - 1)) >> 12, 0, GAMMA_LUT-1)`
with an arithmetic (floor) shift, and the rounding constant is exactly
`2^11 - 1`. -/
theorem q12_kernel_formula (gammaLut : Nat) (m : Fin 3 → Fin 3 → ℤ) (v : Fin 3 → ℤ)
    (hv : ∀ j, 0 ≤ v j ∧ v j ≤ 4096) (hm : ∀ i j, -32768 ≤ m i j ∧ m i j ≤ 32767) :
    (∀ i j, madd_epi16 (v j) (m i j) = m i j * v j) ∧
    (∀ i, q12LaneIndex gammaLut m v i = q12SpecIndex gammaLut m v i) ∧
    ROUNDING_Q4_12 = 2 ^ 11 - 1 := by
  have hmadd : ∀ i j : Fin 3, madd_epi16 (v j) (m i j) = m i j * v j := by
    intro i j
    rw [q12_madd_exact _ _ (hv j).1 (hv j).2 (hm i j).1 (hm i j).2]
    ring
  have hp : ∀ i j : Fin 3, -(2^27) ≤ m i j * v j ∧ m i j * v j ≤ 2^27 := by
    intro i j
    have h1 := (hv j).1
    have h2 := (hv j).2
    have h3 := (hm i j).1
    have h4 := (hm i j).2
    constructor <;> nlinarith
  refine ⟨hmadd, ?_, by decide⟩
  intro i
  unfold q12LaneIndex q12SpecIndex
  rw [hmadd i 0, hmadd i 1, hmadd i 2]
  dsimp only
  have b0 := hp i 0
  have b1 := hp i 1
  have b2 := hp i 2
  have hR : ROUNDING_Q4_12 = 2047 := by decide
  rw [hR]
  rw [wrap32_eq_of_bounds (m i 0 * v 0 + 2047) (by linarith) (by linarith),
    wrap32_eq_of_bounds (m i 1 * v 1 + m i 2 * v 2) (by linarith) (by linarith),
    wrap32_eq_of_bounds _ (by linarith) (by linarith)]
  have hre : m i 0 * v 0 + 2047 + (m i 1 * v 1 + m i 2 * v 2) =
      m i 0 * v 0 + m i 1 * v 1 + m i 2 * v 2 + (2 ^ 11 - 1) := by
    ring
  rw [hre]

/-- Witness for `q12_kernel_formula` at the extreme corner of the
precondition: `v_j = 4096` and `m_ij = -32768`. -/
theorem q12_kernel_formula_witness :
    madd_epi16 4096 (-32768) = 4096 * (-32768) ∧
    q12LaneIndex 8192 (fun _ _ => -32768) (fun _ => 4096) 0 =
      q12SpecIndex 8192 (fun _ _ => -32768) (fun _ => 4096) 0 := by
  have h := q12_kernel_formula 8192 (fun _ _ => (-32768 : ℤ)) (fun _ => (4096 : ℤ))
    (by intro j; exact ⟨by norm_num, by norm_num⟩)
    (by intro i j; exact ⟨by norm_num, by norm_num⟩)
  refine ⟨?_, h.2.1 0⟩
  have h2 := h.1 0 0
  simpa using h2

/-- Witness for `tetra_six_branch_table` at grid edge 2 and input
`(0, 0, 0)`, a lattice point. -/
theorem tetra_six_branch_table_witness :
    tetraInterpolate 2 (fun _ _ _ => ⟨1, 2, 3, 4⟩) 0 0 0 = ⟨1, 2, 3, 4⟩ :=
  (tetra_six_branch_table 2 (fun _ _ _ => ⟨1, 2, 3, 4⟩) (fun _ _ _ => 0) (fun _ _ _ => 0)
      (fun _ _ _ => (0, 0)) 0 0 0).2.1
    (by simp [fracOffset, lutLowerIdx]) (by simp [fracOffset, lutLowerIdx])
    (by simp [fracOffset, lutLowerIdx])
/-- Linearizing a constant source block into an equally long working set
yields a constant working set. -/
theorem linearizeGray_replicate (lin : Nat → ℚ) (s : Nat) (q : ℚ) (n : Nat) :
    linearizeGray lin (List.replicate n s) (List.replicate n q) =
      List.replicate n (lin s) := by
  induction n with
  | zero => rfl
  | succ n ih => simp [List.replicate_succ, linearizeGray, ih]

/-- Closed form of the gray store pass for the `Rgb8` layout over constant
blocks, with a constant-5 gamma table: it writes `3 * (m / 3)` destination
elements (one pixel per working-set entry until fewer than 3 destination
elements remain) and leaves the `m % 3` tail untouched. -/
theorem writeGrayPixels_rgb8_replicate (lin : Nat → ℚ) (gl bd : Nat) (q : ℚ)
    (n m d : Nat) (h : m / 3 ≤ n) :
    writeGrayPixels ⟨lin, fun _ => 5⟩ .Rgb8 gl bd (List.replicate n q)
        (List.replicate m d) =
      List.replicate (3 * (m / 3)) 5 ++ List.replicate (m % 3) d := by
  induction n generalizing m with
  | zero =>
    have hm : m / 3 = 0 := by omega
    simp [writeGrayPixels, hm]
    omega
  | succ n ih =>
    by_cases hm : m < 3
    · have hm3 : m / 3 = 0 := by omega
      rw [List.replicate_succ, writeGrayPixels]
      simp [List.length_replicate, hm, hm3, Layout.channels]
      omega
    · obtain ⟨k, rfl⟩ : ∃ k, m = k + 3 := ⟨m - 3, by omega⟩
      rw [List.replicate_succ, writeGrayPixels]
      have hlen : ¬ (List.replicate (k + 3) d).length < (Layout.Rgb8).channels := by
        simp [Layout.channels]
      rw [if_neg hlen]
      have htake : (List.replicate (k + 3) d).take (Layout.Rgb8).channels =
          List.replicate 3 d := by
        simp [Layout.channels, List.take_replicate]
      have hdrop : (List.replicate (k + 3) d).drop (Layout.Rgb8).channels =
          List.replicate k d := by
        simp [Layout.channels, List.drop_replicate]
      have hrec := ih k (by omega)
      simp only [htake, hdrop, hrec]
      simp [Layout.r_i, Layout.g_i, Layout.b_i, Layout.has_alpha, List.replicate,
        List.set]

/-- The gray main loop stops when either chunk iterator runs short. -/
theorem grayMainLoopGo_stop (p : GrayProfile) (L : Layout) (gl bd csz fuel : Nat)
    (src : List Nat) (ws : List ℚ) (dst : List Nat)
    (h : src.length < 672 ∨ dst.length < csz) :
    grayMainLoopGo p L gl bd csz fuel src ws dst = (ws, dst) := by
  cases fuel with
  | zero => rfl
  | succ n => rw [grayMainLoopGo, if_pos h]

/-- One iteration of the gray main loop: a 672-sample source chunk is paired
with a `672 / channels`-element destination chunk. -/
theorem grayMainLoopGo_step (p : GrayProfile) (L : Layout) (gl bd csz n : Nat)
    (src : List Nat) (ws : List ℚ) (dst : List Nat)
    (h : ¬(src.length < 672 ∨ dst.length < csz)) :
    grayMainLoopGo p L gl bd csz (n + 1) src ws dst =
      ((grayMainLoopGo p L gl bd csz n (src.drop 672)
          (grayTransformChunk p L gl bd (src.take 672) ws (dst.take csz)).1
          (dst.drop csz)).1,
        (grayTransformChunk p L gl bd (src.take 672) ws (dst.take csz)).2 ++
        (grayMainLoopGo p L gl bd csz n (src.drop 672)
          (grayTransformChunk p L gl bd (src.take 672) ws (dst.take csz)).1
          (dst.drop csz)).2) := by
  rw [grayMainLoopGo, if_neg h]

/-- C1, failing evaluation: a Gray-to-Rgb8 transform over 672 gray samples
and a 2016-element destination returns `Ok` but writes only the first 74
pixels (222 elements); destination element 222 — the first element of pixel
74 — keeps its sentinel value 99, while the claim demands the gamma-mapped
value 5 there (third conjunct: the gamma-mapped value of every source sample
is 5).  The cause is the chunk pairing `zip(src.chunks_exact(672),
dst.chunks_exact_mut(672 / channels))` in `transform.rs` lines 608-611. -/
theorem gray_chunk_pairing_drops_pixels :
    grayTransform demoGrayProfile .Rgb8 8192 8
        (List.replicate 672 0) (List.replicate 2016 99) =
      .ok (List.replicate 222 5 ++ List.replicate 1794 99) ∧
    (List.replicate 222 5 ++ List.replicate 1794 99).getD 222 0 = 99 ∧
    demoGrayProfile.gray_gamma
      ((rustRound (demoGrayProfile.gray_linear 0 * ((8192 - 1 : Nat) : ℚ))).toNat) = 5 := by
  refine ⟨?_, ?_, rfl⟩
  case refine_2 =>
    rw [List.getD_append_right _ _ _ _ (by simp only [List.length_replicate]; omega)]
    simp only [List.length_replicate]
    rw [show (222:Nat) - 222 = 0 from rfl]
    rw [show (1794:Nat) = 1793 + 1 from rfl, List.replicate_succ]
    rfl
  have hchunk : grayTransformChunk demoGrayProfile .Rgb8 8192 8
      (List.replicate 672 0) (List.replicate 672 (0:ℚ)) (List.replicate 224 99) =
      (List.replicate 672 (0:ℚ), List.replicate 222 5 ++ List.replicate 2 99) := by
    unfold grayTransformChunk demoGrayProfile
    rw [linearizeGray_replicate]
    dsimp only
    have hw := writeGrayPixels_rgb8_replicate (fun _ => 0) 8192 8 0 672 224 99 (by omega)
    rw [hw]
  have hmain : grayMainLoopGo demoGrayProfile .Rgb8 8192 8 224 2
      (List.replicate 672 0) (List.replicate 672 (0:ℚ)) (List.replicate 2016 99) =
      (List.replicate 672 (0:ℚ),
        (List.replicate 222 5 ++ List.replicate 2 99) ++ List.replicate 1792 99) := by
    rw [show (2:Nat) = 1 + 1 from rfl]
    rw [grayMainLoopGo_step _ _ _ _ _ _ _ _ _
      (by simp only [List.length_replicate]; omega)]
    simp only [List.take_replicate, List.drop_replicate, List.length_replicate]
    norm_num
    rw [hchunk]
    rw [grayMainLoopGo_stop _ _ _ _ _ _ _ _ _
      (by simp only [List.length_nil, List.length_replicate]; omega)]
    refine ⟨rfl, ?_⟩
    rw [List.append_assoc, ← List.replicate_add]
  unfold grayTransform
  rw [if_neg (by simp only [List.length_replicate, Layout.channels]; omega)]
  rw [if_neg (by simp only [List.length_replicate, Layout.channels]; omega)]
  dsimp only [Layout.channels, List.length_replicate]
  have e1 : (672:Nat) / 3 = 224 := by norm_num
  have e2 : (672:Nat) / 672 + 1 = 2 := by norm_num
  have e3 : (672:Nat) * (672 / 672) = 672 := by norm_num
  simp only [List.length_replicate]
  rw [e2, e3, List.drop_replicate]
  have e4 : (672:Nat) - 672 = 0 := by norm_num
  rw [e4, List.replicate_zero]
  rw [if_neg (by simp)]
  rw [hmain]
  dsimp only
  rw [List.append_assoc, ← List.replicate_add]
